import Mathlib

/-!
Verification of the cluster-membership and quorum-computation core
(`src/cluster.rs`): the `ClusterConfig` data model, the `median` quorum
primitive, the two consensus queries, and the joint-consensus phase
transitions.

`BTreeSet<NodeId>` is an ordered duplicate-free collection; it is modelled
by its ascending iteration sequence, a `List NodeId` (well-formed sets are
strictly sorted, captured by `IsMemberSet`).  Rust's `unreachable!` in
`median` (empty member set) is modelled by `Option`: `none` is the panic,
`some v` a normal return.
-/

/-- `NodeId` (external, opaque, totally ordered identifier): modelled as `Nat`. -/
abbrev NodeId := Nat

/-- `pub type ClusterMembers = BTreeSet<NodeId>`, modelled as the ascending
iteration sequence of the tree. -/
abbrev ClusterMembers := List NodeId

/-- A list is the image of a well-formed `BTreeSet` iff it is strictly
ascending (hence duplicate-free). -/
abbrev IsMemberSet (m : ClusterMembers) : Prop :=
  List.Sorted (· < ·) m

/-- `enum ClusterState { Stable, CatchUp, Joint }`. -/
inductive ClusterState where
  | Stable
  | CatchUp
  | Joint
deriving DecidableEq

/-- `ClusterState::is_stable`: `self == ClusterState::Stable`. -/
def ClusterState.is_stable (s : ClusterState) : Bool :=
  s == ClusterState.Stable

/-- `ClusterState::is_joint`: `self == ClusterState::Joint`. -/
def ClusterState.is_joint (s : ClusterState) : Bool :=
  s == ClusterState.Joint

/-- `struct ClusterConfig { new: ClusterMembers, old: ClusterMembers,
state: ClusterState }`.  The fields are named after the public accessors
`new_members`, `old_members`, `state`, which in the Rust code simply return
the corresponding fields. -/
structure ClusterConfig where
  new_members : ClusterMembers
  old_members : ClusterMembers
  state : ClusterState
deriving DecidableEq

/-- `ClusterConfig::primary_members`: `new` when `Stable`, `old` when
`CatchUp` or `Joint`. -/
def ClusterConfig.primary_members (c : ClusterConfig) : ClusterMembers :=
  match c.state with
  | ClusterState.Stable => c.new_members
  | ClusterState.CatchUp => c.old_members
  | ClusterState.Joint => c.old_members

/-- `ClusterConfig::new(members)`: a `Stable` configuration with empty `old`. -/
def ClusterConfig.new (members : ClusterMembers) : ClusterConfig :=
  ClusterConfig.mk members [] ClusterState.Stable

/-- `ClusterConfig::with_state(new_members, old_members, state)`: constructs
the record directly, with no validation of any kind. -/
def ClusterConfig.with_state (new_members old_members : ClusterMembers)
    (state : ClusterState) : ClusterConfig :=
  ClusterConfig.mk new_members old_members state

/-- `ClusterConfig::start_config_change(new)`: unconditionally returns
`ClusterConfig { new, old: self.primary_members().clone(), state: CatchUp }`.
The Rust function performs no phase check. -/
def ClusterConfig.start_config_change (c : ClusterConfig) (new : ClusterMembers) :
    ClusterConfig :=
  ClusterConfig.mk new c.primary_members ClusterState.CatchUp

/-- `ClusterConfig::to_next_state`: `Stable ↦ self.clone()`,
`CatchUp ↦ Joint` (members unchanged), `Joint ↦ Stable` with `old` cleared. -/
def ClusterConfig.to_next_state (c : ClusterConfig) : ClusterConfig :=
  match c.state with
  | ClusterState.Stable => c
  | ClusterState.CatchUp =>
      ClusterConfig.mk c.new_members c.old_members ClusterState.Joint
  | ClusterState.Joint =>
      ClusterConfig.mk c.new_members [] ClusterState.Stable

/-- `fn median(members, f)`: collect each member's value, `sort()` ascending,
`reverse()` so the list is descending, and index at `members.len() / 2`.
On an empty member set the Rust code hits `unreachable!`, modelled by `none`
(for a non-empty set the index is always in bounds, see `median_eq_some`). -/
def median {α : Type} [LinearOrder α] (members : ClusterMembers) (f : NodeId → α) :
    Option α :=
  ((List.insertionSort (· ≤ ·) (members.map f)).reverse)[members.length / 2]?

/-- `ClusterConfig::consensus_value(f)`: `median(new)` in `Stable`,
`median(old)` in `CatchUp`, `min(median(new), median(old))` in `Joint`. -/
def ClusterConfig.consensus_value {α : Type} [LinearOrder α]
    (c : ClusterConfig) (f : NodeId → α) : Option α :=
  match c.state with
  | ClusterState.Stable => median c.new_members f
  | ClusterState.CatchUp => median c.old_members f
  | ClusterState.Joint =>
      match median c.new_members f, median c.old_members f with
      | some a, some b => some (min a b)
      | _, _ => none

/-- `ClusterConfig::full_consensus_value(f)`: `median(new)` when stable,
otherwise `min(median(new), median(old))` (also during `CatchUp`). -/
def ClusterConfig.full_consensus_value {α : Type} [LinearOrder α]
    (c : ClusterConfig) (f : NodeId → α) : Option α :=
  if c.state.is_stable then
    median c.new_members f
  else
    match median c.new_members f, median c.old_members f with
    | some a, some b => some (min a b)
    | _, _ => none

/-- Configurations reachable from a bootstrap configuration
(`ClusterConfig::new`) via `start_config_change` and `to_next_state`,
with arbitrary bootstrap member sets and arbitrary target sets. -/
inductive Reachable : ClusterConfig → Prop where
  | boot (members : ClusterMembers) : Reachable (ClusterConfig.new members)
  | step_change (c : ClusterConfig) (t : ClusterMembers) (hc : Reachable c) :
      Reachable (c.start_config_change t)
  | step_next (c : ClusterConfig) (hc : Reachable c) :
      Reachable c.to_next_state

/-- Configurations reachable when the bootstrap member set and every
`start_config_change` target are non-empty. -/
inductive ReachableNE : ClusterConfig → Prop where
  | boot (members : ClusterMembers) (hne : members ≠ []) :
      ReachableNE (ClusterConfig.new members)
  | step_change (c : ClusterConfig) (t : ClusterMembers) (hne : t ≠ [])
      (hc : ReachableNE c) : ReachableNE (c.start_config_change t)
  | step_next (c : ClusterConfig) (hc : ReachableNE c) :
      ReachableNE c.to_next_state

/-- A driver-visible operation on a configuration: request a change, advance
the phase, or run a `consensus_value` query with some per-member values. -/
inductive DriverOp (α : Type) where
  | start_change (t : ClusterMembers)
  | next_state
  | query (f : NodeId → α)

/-- Effect of a driver operation on the current configuration.
`consensus_value` takes `&self` and returns a value, so a query leaves the
configuration unchanged. -/
def applyOp {α : Type} (c : ClusterConfig) : DriverOp α → ClusterConfig
  | DriverOp.start_change t => c.start_config_change t
  | DriverOp.next_state => c.to_next_state
  | DriverOp.query _ => c

/-- The operation is a `consensus_value` query. -/
def IsQuery {α : Type} (op : DriverOp α) : Prop :=
  ∃ f, op = DriverOp.query f

/-! Helper lemmas about sorted lists, counting, and `median`. -/

lemma sorted_desc_countP_ge {α : Type} [LinearOrder α] (l : List α)
    (hs : List.Sorted (· ≥ ·) l) (k : ℕ) (hk : k < l.length) :
    k + 1 ≤ l.countP (fun a => decide (l[k] ≤ a)) := by
  have hlen : (l.take (k + 1)).length = k + 1 := by
    rw [List.length_take]; omega
  have hall : ∀ a ∈ l.take (k + 1), decide (l[k] ≤ a) = true := by
    intro a ha
    rcases List.mem_iff_getElem.mp ha with ⟨i, hi, rfl⟩
    rw [List.getElem_take]
    rcases Nat.lt_or_ge i k with hlt | hge
    · have := List.pairwise_iff_getElem.mp hs i k (by omega) hk hlt
      simpa using this
    · have : i = k := by omega
      subst this
      simp
  have htake : (l.take (k + 1)).countP (fun a => decide (l[k] ≤ a)) = k + 1 := by
    rw [List.countP_eq_length.mpr hall, hlen]
  calc k + 1 = (l.take (k + 1)).countP (fun a => decide (l[k] ≤ a)) := htake.symm
    _ ≤ (l.take (k + 1)).countP (fun a => decide (l[k] ≤ a))
        + (l.drop (k + 1)).countP (fun a => decide (l[k] ≤ a)) := Nat.le_add_right _ _
    _ = l.countP (fun a => decide (l[k] ≤ a)) := by
        rw [← List.countP_append, List.take_append_drop]

lemma sorted_desc_le_of_countP {α : Type} [LinearOrder α] (l : List α)
    (hs : List.Sorted (· ≥ ·) l) (k : ℕ) (hk : k < l.length) (x : α)
    (hx : k + 1 ≤ l.countP (fun a => decide (x ≤ a))) : x ≤ l[k] := by
  by_contra hlt
  push_neg at hlt
  have hdrop : (l.drop k).countP (fun a => decide (x ≤ a)) = 0 := by
    rw [List.countP_eq_zero]
    intro a ha
    rcases List.mem_iff_getElem.mp ha with ⟨i, hi, rfl⟩
    have hki : k + i < l.length := by
      rw [List.length_drop] at hi; omega
    rw [List.getElem_drop]
    simp only [decide_eq_true_eq, not_le]
    have hle : l[k + i] ≤ l[k] := by
      rcases Nat.eq_zero_or_pos i with h0 | hpos
      · subst h0; simp
      · have := List.pairwise_iff_getElem.mp hs k (k + i) hk hki (by omega)
        simpa using this
    exact lt_of_le_of_lt hle hlt
  have hcount : l.countP (fun a => decide (x ≤ a)) ≤ k := by
    calc l.countP (fun a => decide (x ≤ a))
        = (l.take k ++ l.drop k).countP (fun a => decide (x ≤ a)) := by
          rw [List.take_append_drop]
      _ = (l.take k).countP (fun a => decide (x ≤ a)) := by
          rw [List.countP_append, hdrop, Nat.add_zero]
      _ ≤ (l.take k).length := List.countP_le_length _
      _ ≤ k := by rw [List.length_take]; omega
  omega

lemma median_eq_some {α : Type} [LinearOrder α] (M : ClusterMembers) (hM : M ≠ [])
    (f : NodeId → α) : ∃ r, median M f = some r := by
  have hlen : ((List.insertionSort (· ≤ ·) (M.map f)).reverse).length = M.length := by
    rw [List.length_reverse, (List.perm_insertionSort _ _).length_eq, List.length_map]
  have hpos : 0 < M.length := List.length_pos.mpr hM
  have hk : M.length / 2 < ((List.insertionSort (· ≤ ·) (M.map f)).reverse).length := by
    rw [hlen]; omega
  exact ⟨_, List.getElem?_eq_getElem hk⟩

lemma median_congr {α : Type} [LinearOrder α] (M : ClusterMembers)
    (f g : NodeId → α) (h : ∀ m ∈ M, f m = g m) : median M f = median M g := by
  unfold median
  rw [List.map_congr_left h]

lemma foldl_applyOp_queries {α : Type} (c : ClusterConfig) (qs : List (DriverOp α))
    (h : ∀ op ∈ qs, IsQuery op) : qs.foldl applyOp c = c := by
  induction qs with
  | nil => rfl
  | cons op rest ih =>
      rcases h op (List.mem_cons_self _ _) with ⟨f, rfl⟩
      simp only [List.foldl_cons]
      exact ih fun o ho => h o (List.mem_cons_of_mem _ ho)

/-! Claim theorems. -/

/-- Claim C2: for every non-empty member set `M` of size `N` and every
assignment of values to its members, `median` (sort descending, take the
element at zero-based index `⌊N/2⌋`) returns the largest value `x` such
that at least `⌊N/2⌋ + 1` members hold a value `≥ x`. -/
theorem median_majority_max {α : Type} [LinearOrder α] (M : ClusterMembers)
    (hM : M ≠ []) (hset : IsMemberSet M) (f : NodeId → α) :
    ∃ r, median M f = some r ∧
      M.length / 2 + 1 ≤ M.countP (fun m => decide (r ≤ f m)) ∧
      ∀ x : α, M.length / 2 + 1 ≤ M.countP (fun m => decide (x ≤ f m)) → x ≤ r := by
  have hsorted : List.Sorted (· ≥ ·)
      ((List.insertionSort (· ≤ ·) (M.map f)).reverse) := by
    rw [List.Sorted, List.pairwise_reverse]
    exact List.sorted_insertionSort (· ≤ ·) (M.map f)
  have hperm : ((List.insertionSort (· ≤ ·) (M.map f)).reverse).Perm (M.map f) :=
    (List.reverse_perm _).trans (List.perm_insertionSort _ _)
  have hlen : ((List.insertionSort (· ≤ ·) (M.map f)).reverse).length = M.length := by
    rw [hperm.length_eq, List.length_map]
  have hcount : ∀ p : α → Bool,
      ((List.insertionSort (· ≤ ·) (M.map f)).reverse).countP p
        = M.countP (fun m => p (f m)) := by
    intro p
    rw [hperm.countP_eq, List.countP_map]
    rfl
  have hpos : 0 < M.length := List.length_pos.mpr hM
  have hk : M.length / 2 < ((List.insertionSort (· ≤ ·) (M.map f)).reverse).length := by
    rw [hlen]; omega
  refine ⟨((List.insertionSort (· ≤ ·) (M.map f)).reverse)[M.length / 2], ?_, ?_, ?_⟩
  · exact List.getElem?_eq_getElem hk
  · have h1 := sorted_desc_countP_ge _ hsorted _ hk
    rw [hcount
      (fun a => decide ((List.insertionSort (· ≤ ·) (M.map f)).reverse[M.length / 2] ≤ a))] at h1
    exact h1
  · intro x hx
    rw [← hcount (fun a => decide (x ≤ a))] at hx
    exact sorted_desc_le_of_countP _ hsorted _ hk x hx

/-- Claim C2, witness: the member set `[0, 1, 2]` with values `0, 1, 2`. -/
theorem median_majority_max_witness :
    ([0, 1, 2] : ClusterMembers) ≠ [] ∧ IsMemberSet [0, 1, 2] ∧
    ∃ r, median ([0, 1, 2] : ClusterMembers) (fun n => (n : Int)) = some r ∧
      ([0, 1, 2] : ClusterMembers).length / 2 + 1
        ≤ ([0, 1, 2] : ClusterMembers).countP (fun m => decide (r ≤ (m : Int))) ∧
      ∀ x : Int,
        ([0, 1, 2] : ClusterMembers).length / 2 + 1
          ≤ ([0, 1, 2] : ClusterMembers).countP (fun m => decide (x ≤ (m : Int))) →
        x ≤ r :=
  ⟨by decide, by decide,
    median_majority_max [0, 1, 2] (by decide) (by decide) (fun n => (n : Int))⟩

/-- Claim C1: in the `Joint` phase, `consensus_value f` is the minimum of the
majority-guaranteed value over `new_members` and over `old_members`, computed
independently. -/
theorem consensus_value_joint_min {α : Type} [LinearOrder α] (c : ClusterConfig)
    (h : c.state = ClusterState.Joint) (f : NodeId → α)
    (hnew : c.new_members ≠ []) (hold : c.old_members ≠ []) :
    ∃ a b, median c.new_members f = some a ∧ median c.old_members f = some b ∧
      c.consensus_value f = some (min a b) := by
  rcases median_eq_some c.new_members hnew f with ⟨a, ha⟩
  rcases median_eq_some c.old_members hold f with ⟨b, hb⟩
  refine ⟨a, b, ha, hb, ?_⟩
  rcases c with ⟨cn, co, cs⟩
  obtain rfl : cs = ClusterState.Joint := h
  simp only [ClusterConfig.consensus_value] at *
  rw [ha, hb]

/-- Claim C1, witness: spec scenario 3 (`new = {A..E}` with values
`5, 7, 3, 9, 1`, `old = {A, B, C}` with values `5, 7, 3`). -/
theorem consensus_value_joint_min_witness :
    (ClusterConfig.mk [0, 1, 2, 3, 4] [0, 1, 2] ClusterState.Joint).state
      = ClusterState.Joint ∧
    ([0, 1, 2, 3, 4] : ClusterMembers) ≠ [] ∧ ([0, 1, 2] : ClusterMembers) ≠ [] ∧
    ∃ a b,
      median ([0, 1, 2, 3, 4] : ClusterMembers)
        (fun n => if n = 0 then (5 : Int) else if n = 1 then 7 else if n = 2 then 3
          else if n = 3 then 9 else 1) = some a ∧
      median ([0, 1, 2] : ClusterMembers)
        (fun n => if n = 0 then (5 : Int) else if n = 1 then 7 else if n = 2 then 3
          else if n = 3 then 9 else 1) = some b ∧
      (ClusterConfig.mk [0, 1, 2, 3, 4] [0, 1, 2] ClusterState.Joint).consensus_value
        (fun n => if n = 0 then (5 : Int) else if n = 1 then 7 else if n = 2 then 3
          else if n = 3 then 9 else 1) = some (min a b) :=
  ⟨rfl, by decide, by decide,
    consensus_value_joint_min (ClusterConfig.mk [0, 1, 2, 3, 4] [0, 1, 2] ClusterState.Joint) rfl
      (fun n => if n = 0 then (5 : Int) else if n = 1 then 7 else if n = 2 then 3
        else if n = 3 then 9 else 1) (by decide) (by decide)⟩

/-- Claim C4: the quorum primitive on an empty member set fails
(`unreachable!`, modelled as `none`) and never returns a default value;
consequently `consensus_value` and `full_consensus_value` fail rather than
return a default when the voting set of the current phase is empty. -/
theorem empty_quorum_fails {α : Type} [LinearOrder α] (c : ClusterConfig)
    (f : NodeId → α)
    (h : (c.state = ClusterState.Stable ∧ c.new_members = [])
      ∨ (c.state = ClusterState.CatchUp ∧ c.old_members = [])
      ∨ (c.state = ClusterState.Joint ∧ (c.new_members = [] ∨ c.old_members = []))) :
    median ([] : ClusterMembers) f = none ∧
    c.consensus_value f = none ∧ c.full_consensus_value f = none := by
  refine ⟨rfl, ?_⟩
  rcases c with ⟨cn, co, cs⟩
  rcases h with ⟨hs, he⟩ | ⟨hs, he⟩ | ⟨hs, he⟩
  · obtain rfl : cs = ClusterState.Stable := hs
    obtain rfl : cn = [] := he
    exact ⟨rfl, rfl⟩
  · obtain rfl : cs = ClusterState.CatchUp := hs
    obtain rfl : co = [] := he
    constructor
    · rfl
    · simp only [ClusterConfig.full_consensus_value, ClusterState.is_stable]
      cases hm : median cn f <;> rfl
  · obtain rfl : cs = ClusterState.Joint := hs
    rcases he with he | he
    · obtain rfl : cn = [] := he
      exact ⟨rfl, rfl⟩
    · obtain rfl : co = [] := he
      constructor
      · simp only [ClusterConfig.consensus_value]
        cases hm : median cn f <;> rfl
      · simp only [ClusterConfig.full_consensus_value, ClusterState.is_stable]
        cases hm : median cn f <;> rfl

/-- Claim C4, witness: a `CatchUp` configuration with empty `old_members`. -/
theorem empty_quorum_fails_witness :
    ((ClusterConfig.mk [0] [] ClusterState.CatchUp).state = ClusterState.CatchUp ∧
      (ClusterConfig.mk [0] [] ClusterState.CatchUp).old_members = []) ∧
    median ([] : ClusterMembers) (fun n => (n : Int)) = none ∧
    (ClusterConfig.mk [0] [] ClusterState.CatchUp).consensus_value
      (fun n => (n : Int)) = none ∧
    (ClusterConfig.mk [0] [] ClusterState.CatchUp).full_consensus_value
      (fun n => (n : Int)) = none :=
  ⟨⟨rfl, rfl⟩,
    empty_quorum_fails (ClusterConfig.mk [0] [] ClusterState.CatchUp)
      (fun n => (n : Int)) (Or.inr (Or.inl ⟨rfl, rfl⟩))⟩

/-- Claim C5: in `CatchUp`, `consensus_value` is the majority value over
`old_members` only and is independent of the values assigned outside
`old_members`, while `full_consensus_value` is the minimum of the two sets'
independent majority values; in `Stable` the two queries coincide. -/
theorem consensus_catchup_stable {α : Type} [LinearOrder α] (c : ClusterConfig)
    (f g : NodeId → α) :
    (c.state = ClusterState.CatchUp →
      c.consensus_value f = median c.old_members f) ∧
    (c.state = ClusterState.CatchUp → (∀ m ∈ c.old_members, f m = g m) →
      c.consensus_value f = c.consensus_value g) ∧
    (c.state = ClusterState.CatchUp → ∀ a b : α,
      median c.new_members f = some a → median c.old_members f = some b →
      c.full_consensus_value f = some (min a b)) ∧
    (c.state = ClusterState.Stable →
      c.consensus_value f = c.full_consensus_value f) := by
  rcases c with ⟨cn, co, cs⟩
  refine ⟨?_, ?_, ?_, ?_⟩
  · intro h
    obtain rfl : cs = ClusterState.CatchUp := h
    rfl
  · intro h hfg
    obtain rfl : cs = ClusterState.CatchUp := h
    show median co f = median co g
    exact median_congr co f g hfg
  · intro h a b ha hb
    obtain rfl : cs = ClusterState.CatchUp := h
    simp only [ClusterConfig.full_consensus_value, ClusterState.is_stable]
    rw [ha, hb]
    rfl
  · intro h
    obtain rfl : cs = ClusterState.Stable := h
    rfl

/-- Claim C5, witness: a `CatchUp` configuration with `new = {3}`,
`old = {0, 1, 2}`, values `f n = n`, and `g` differing from `f` only on the
new member `3`; plus a `Stable` configuration for the last conjunct. -/
theorem consensus_catchup_stable_witness :
    ((ClusterConfig.mk [3] [0, 1, 2] ClusterState.CatchUp).consensus_value
        (fun n => (n : Int))
      = median (ClusterConfig.mk [3] [0, 1, 2] ClusterState.CatchUp).old_members
        (fun n => (n : Int))) ∧
    ((ClusterConfig.mk [3] [0, 1, 2] ClusterState.CatchUp).consensus_value
        (fun n => (n : Int))
      = (ClusterConfig.mk [3] [0, 1, 2] ClusterState.CatchUp).consensus_value
        (fun n => if n = 3 then (100 : Int) else (n : Int))) ∧
    ((ClusterConfig.mk [3] [0, 1, 2] ClusterState.CatchUp).full_consensus_value
        (fun n => (n : Int)) = some (min 3 1)) ∧
    ((ClusterConfig.new [0]).consensus_value (fun n => (n : Int))
      = (ClusterConfig.new [0]).full_consensus_value (fun n => (n : Int))) :=
  ⟨(consensus_catchup_stable (ClusterConfig.mk [3] [0, 1, 2] ClusterState.CatchUp)
      (fun n => (n : Int)) (fun n => if n = 3 then (100 : Int) else (n : Int))).1 rfl,
   (consensus_catchup_stable (ClusterConfig.mk [3] [0, 1, 2] ClusterState.CatchUp)
      (fun n => (n : Int)) (fun n => if n = 3 then (100 : Int) else (n : Int))).2.1
      rfl (by decide),
   (consensus_catchup_stable (ClusterConfig.mk [3] [0, 1, 2] ClusterState.CatchUp)
      (fun n => (n : Int)) (fun n => if n = 3 then (100 : Int) else (n : Int))).2.2.1
      rfl 3 1 (by decide) (by decide),
   (consensus_catchup_stable (ClusterConfig.new [0])
      (fun n => (n : Int)) (fun n => if n = 3 then (100 : Int) else (n : Int))).2.2.2
      rfl⟩

/-- Claim C3, counterexample: `start_config_change` on a `CatchUp` instance
(the in-progress change `{0,1,2} → {0,1,2,3}`) is not rejected; it returns a
new `CatchUp` configuration for the target `{9}`, discarding the in-progress
target `{0,1,2,3}`. -/
theorem start_config_change_not_rejected :
    ((ClusterConfig.new [0, 1, 2]).start_config_change [0, 1, 2, 3]).state
      = ClusterState.CatchUp ∧
    ((ClusterConfig.new [0, 1, 2]).start_config_change
        [0, 1, 2, 3]).start_config_change [9]
      = ClusterConfig.mk [9] [0, 1, 2] ClusterState.CatchUp := by
  decide

/-- Claim C3, amended: calling `start_config_change` on a `CatchUp` or
`Joint` instance is not rejected; it returns a new `CatchUp` configuration
whose `new_members` is the target and whose `old_members` is the receiver's
`old_members` (its `primary_members`), silently replacing the in-progress
change. -/
theorem start_config_change_overwrites (c : ClusterConfig) (t : ClusterMembers)
    (h : c.state = ClusterState.CatchUp ∨ c.state = ClusterState.Joint) :
    c.start_config_change t = ClusterConfig.mk t c.old_members ClusterState.CatchUp := by
  rcases c with ⟨cn, co, cs⟩
  rcases h with h | h
  · obtain rfl : cs = ClusterState.CatchUp := h
    rfl
  · obtain rfl : cs = ClusterState.Joint := h
    rfl

/-- Claim C3, witness for the amended statement. -/
theorem start_config_change_overwrites_witness :
    ((ClusterConfig.mk [1] [0] ClusterState.CatchUp).state = ClusterState.CatchUp ∨
      (ClusterConfig.mk [1] [0] ClusterState.CatchUp).state = ClusterState.Joint) ∧
    (ClusterConfig.mk [1] [0] ClusterState.CatchUp).start_config_change [5]
      = ClusterConfig.mk [5]
          (ClusterConfig.mk [1] [0] ClusterState.CatchUp).old_members
          ClusterState.CatchUp :=
  ⟨Or.inl rfl,
    start_config_change_overwrites (ClusterConfig.mk [1] [0] ClusterState.CatchUp)
      [5] (Or.inl rfl)⟩

/-- Claim C7: from `Stable`, `start_config_change target` returns a new
instance with `new_members = target`,
`old_members = primary_members` (which in `Stable` is `new_members`), and
phase `CatchUp`. -/
theorem start_config_change_from_stable (c : ClusterConfig) (t : ClusterMembers)
    (h : c.state = ClusterState.Stable) :
    (c.start_config_change t).new_members = t ∧
    (c.start_config_change t).old_members = c.primary_members ∧
    c.primary_members = c.new_members ∧
    (c.start_config_change t).state = ClusterState.CatchUp := by
  refine ⟨rfl, rfl, ?_, rfl⟩
  rcases c with ⟨cn, co, cs⟩
  obtain rfl : cs = ClusterState.Stable := h
  rfl

/-- Claim C7, witness: spec scenario 2 (`{0,1,2}` changing to `{0,1,2,3,4}`). -/
theorem start_config_change_from_stable_witness :
    (ClusterConfig.new [0, 1, 2]).state = ClusterState.Stable ∧
    (((ClusterConfig.new [0, 1, 2]).start_config_change
        [0, 1, 2, 3, 4]).new_members = [0, 1, 2, 3, 4] ∧
      ((ClusterConfig.new [0, 1, 2]).start_config_change
        [0, 1, 2, 3, 4]).old_members = (ClusterConfig.new [0, 1, 2]).primary_members ∧
      (ClusterConfig.new [0, 1, 2]).primary_members
        = (ClusterConfig.new [0, 1, 2]).new_members ∧
      ((ClusterConfig.new [0, 1, 2]).start_config_change
        [0, 1, 2, 3, 4]).state = ClusterState.CatchUp) :=
  ⟨rfl, start_config_change_from_stable (ClusterConfig.new [0, 1, 2])
    [0, 1, 2, 3, 4] rfl⟩

/-- Claim C8: `to_next_state` follows the fixed cycle — identity from
`Stable`, `CatchUp → Joint` with both member sets unchanged, and
`Joint → Stable` with `old_members` cleared and `new_members` unchanged. -/
theorem to_next_state_cycle (c : ClusterConfig) :
    (c.state = ClusterState.Stable → c.to_next_state = c) ∧
    (c.state = ClusterState.CatchUp →
      c.to_next_state
        = ClusterConfig.mk c.new_members c.old_members ClusterState.Joint) ∧
    (c.state = ClusterState.Joint →
      c.to_next_state = ClusterConfig.mk c.new_members [] ClusterState.Stable) := by
  rcases c with ⟨cn, co, cs⟩
  refine ⟨?_, ?_, ?_⟩
  · intro h
    obtain rfl : cs = ClusterState.Stable := h
    rfl
  · intro h
    obtain rfl : cs = ClusterState.CatchUp := h
    rfl
  · intro h
    obtain rfl : cs = ClusterState.Joint := h
    rfl

/-- Claim C8, witness: one configuration per phase. -/
theorem to_next_state_cycle_witness :
    ((ClusterConfig.mk [0] [] ClusterState.Stable).to_next_state
      = ClusterConfig.mk [0] [] ClusterState.Stable) ∧
    ((ClusterConfig.mk [1] [0] ClusterState.CatchUp).to_next_state
      = ClusterConfig.mk [1] [0] ClusterState.Joint) ∧
    ((ClusterConfig.mk [1] [0] ClusterState.Joint).to_next_state
      = ClusterConfig.mk [1] [] ClusterState.Stable) :=
  ⟨(to_next_state_cycle (ClusterConfig.mk [0] [] ClusterState.Stable)).1 rfl,
   (to_next_state_cycle (ClusterConfig.mk [1] [0] ClusterState.CatchUp)).2.1 rfl,
   (to_next_state_cycle (ClusterConfig.mk [1] [0] ClusterState.Joint)).2.2 rfl⟩

/-- Claim C6, counterexample: `start_config_change` places its target set in
`new_members` unvalidated, so the empty target makes a configuration with
empty `new_members` reachable from a (legitimate, non-empty) bootstrap. -/
theorem reachable_empty_new_members :
    Reachable ((ClusterConfig.new [0]).start_config_change []) ∧
    ((ClusterConfig.new [0]).start_config_change []).new_members = [] :=
  ⟨Reachable.step_change (ClusterConfig.new [0]) [] (Reachable.boot [0]), rfl⟩

/-- Claim C6, amended: for every configuration reachable from a bootstrap
configuration with a non-empty member set by `start_config_change` with
non-empty targets and `to_next_state`: `new_members` is never empty,
`old_members` is empty whenever the phase is `Stable`, and `old_members` is
non-empty whenever the phase is `CatchUp` or `Joint`. -/
theorem reachableNE_invariants (c : ClusterConfig) (h : ReachableNE c) :
    c.new_members ≠ [] ∧
    (c.state = ClusterState.Stable → c.old_members = []) ∧
    (c.state ≠ ClusterState.Stable → c.old_members ≠ []) := by
  induction h with
  | boot members hne =>
      exact ⟨hne, fun _ => rfl, fun hs => absurd rfl hs⟩
  | step_change c t hne hc ih =>
      refine ⟨hne, ?_, ?_⟩
      · intro hs
        exact absurd hs (by simp [ClusterConfig.start_config_change])
      · intro _
        show c.primary_members ≠ []
        rcases ih with ⟨hnew, hstab, hnonstab⟩
        cases hs : c.state with
        | Stable => simpa [ClusterConfig.primary_members, hs] using hnew
        | CatchUp =>
            simpa [ClusterConfig.primary_members, hs] using
              hnonstab (by simp [hs])
        | Joint =>
            simpa [ClusterConfig.primary_members, hs] using
              hnonstab (by simp [hs])
  | step_next c hc ih =>
      rcases ih with ⟨hnew, hstab, hnonstab⟩
      cases hs : c.state with
      | Stable =>
          have he : c.to_next_state = c := by
            simp [ClusterConfig.to_next_state, hs]
          rw [he]
          exact ⟨hnew, hstab, hnonstab⟩
      | CatchUp =>
          have he : c.to_next_state
              = ClusterConfig.mk c.new_members c.old_members ClusterState.Joint := by
            simp [ClusterConfig.to_next_state, hs]
          rw [he]
          exact ⟨hnew, by simp, fun _ => hnonstab (by simp [hs])⟩
      | Joint =>
          have he : c.to_next_state
              = ClusterConfig.mk c.new_members [] ClusterState.Stable := by
            simp [ClusterConfig.to_next_state, hs]
          rw [he]
          exact ⟨hnew, fun _ => rfl, fun hne => absurd rfl hne⟩

/-- Claim C6, witness for the amended statement: the bootstrap `{0}`. -/
theorem reachableNE_invariants_witness :
    ReachableNE (ClusterConfig.new [0]) ∧
    ((ClusterConfig.new [0]).new_members ≠ [] ∧
      ((ClusterConfig.new [0]).state = ClusterState.Stable →
        (ClusterConfig.new [0]).old_members = []) ∧
      ((ClusterConfig.new [0]).state ≠ ClusterState.Stable →
        (ClusterConfig.new [0]).old_members ≠ [])) :=
  ⟨ReachableNE.boot [0] (by decide),
    reachableNE_invariants (ClusterConfig.new [0])
      (ReachableNE.boot [0] (by decide))⟩

/-- Claim C9: from `Stable`, requesting a change to `target` and advancing
the phase twice yields a `Stable` configuration with `new_members = target`
as the sole membership and empty `old_members`; `consensus_value` queries
interleaved anywhere in the sequence do not affect this outcome, since a
query borrows the configuration immutably and returns only a value. -/
theorem config_change_round_trip {α : Type} (c : ClusterConfig)
    (t : ClusterMembers) (h : c.state = ClusterState.Stable)
    (q1 q2 : List (DriverOp α))
    (h1 : ∀ op ∈ q1, IsQuery op) (h2 : ∀ op ∈ q2, IsQuery op) :
    ((DriverOp.start_change t :: q1)
        ++ (DriverOp.next_state :: q2) ++ [DriverOp.next_state]).foldl applyOp c
      = ClusterConfig.mk t [] ClusterState.Stable := by
  simp only [List.foldl_append, List.foldl_cons, List.foldl_nil]
  rw [foldl_applyOp_queries (applyOp c (DriverOp.start_change t)) q1 h1,
    foldl_applyOp_queries
      (applyOp (applyOp c (DriverOp.start_change t)) DriverOp.next_state) q2 h2]
  rfl

/-- Claim C9, witness: bootstrap `{0}`, change to `{1, 2}`, with one query
interleaved after the change request and one after the first advance. -/
theorem config_change_round_trip_witness :
    (ClusterConfig.new [0]).state = ClusterState.Stable ∧
    ((DriverOp.start_change [1, 2] :: [DriverOp.query (fun _ => (0 : Int))])
        ++ (DriverOp.next_state :: [DriverOp.query (fun _ => (7 : Int))])
        ++ [DriverOp.next_state]).foldl applyOp (ClusterConfig.new [0])
      = ClusterConfig.mk [1, 2] [] ClusterState.Stable :=
  ⟨rfl,
    config_change_round_trip (ClusterConfig.new [0]) [1, 2] rfl
      [DriverOp.query (fun _ => (0 : Int))] [DriverOp.query (fun _ => (7 : Int))]
      (by intro op hop; rw [List.mem_singleton.mp hop]; exact ⟨_, rfl⟩)
      (by intro op hop; rw [List.mem_singleton.mp hop]; exact ⟨_, rfl⟩)⟩

/-- Claim C10: `with_state` accepts arbitrary member sets and phase with no
validation, so it can build instances violating the documented invariants:
a `Stable` instance with non-empty `old_members`, a `CatchUp` instance with
empty `old_members`, and an instance with empty `new_members`. -/
theorem with_state_no_validation :
    (∀ (n o : ClusterMembers) (s : ClusterState),
      ClusterConfig.with_state n o s = ClusterConfig.mk n o s) ∧
    (ClusterConfig.with_state [0] [1] ClusterState.Stable).state
      = ClusterState.Stable ∧
    (ClusterConfig.with_state [0] [1] ClusterState.Stable).old_members ≠ [] ∧
    (ClusterConfig.with_state [0] [] ClusterState.CatchUp).state
      = ClusterState.CatchUp ∧
    (ClusterConfig.with_state [0] [] ClusterState.CatchUp).old_members = [] ∧
    (ClusterConfig.with_state [] [] ClusterState.Stable).new_members = [] :=
  ⟨fun _ _ _ => rfl, rfl, by decide, rfl, rfl, rfl⟩
